import Mathlib

/-!
Shallow embedding of the form content model of `mcp_server.py`
(Confluence form MCP server): field extraction, content merging,
form-kind classification, submission summary rendering and the
`complete_form` orchestration, together with theorems settling the
frozen claims about them.

Strings are modelled as `List Char`.  Python's regular-expression
matching is embedded operationally for the three concrete patterns the
source uses, following the actual backtracking semantics of CPython's
`re` engine on those patterns (documented at each definition).
-/

namespace ConfluenceMCP

/-- ASCII core of Python's regex `\w` character class. -/
def isWordChar (c : Char) : Bool :=
  c.isAlpha || c.isDigit || c = '_'

/-- ASCII lowering, the core of Python's `str.lower` used by `classify`. -/
def lowerChar (c : Char) : Char :=
  if 'A' ≤ c ∧ c ≤ 'Z' then Char.ofNat (c.toNat + 32) else c

/-- `leadsWith pat s` is true iff `pat` is an initial segment of `s`. -/
def leadsWith : List Char → List Char → Bool
  | [], _ => true
  | _ :: _, [] => false
  | p :: ps, c :: cs => p = c && leadsWith ps cs

/-- Python's substring containment `pat in s`. -/
def containsTok (pat : List Char) : List Char → Bool
  | [] => leadsWith pat []
  | c :: rest => leadsWith pat (c :: rest) || containsTok pat rest

/-- Python's `str.replace`: leftmost, non-overlapping; replacement text is
not rescanned.  (The source only calls it with non-empty patterns.)
Structural recursion on a fuel counter; every step consumes at least one
input character, so fuel `s.length` (used by `replaceSub`) never runs out. -/
def replaceSubF (pat repl : List Char) : Nat → List Char → List Char
  | _, [] => []
  | 0, s => s
  | fuel + 1, c :: rest =>
    if pat ≠ [] ∧ leadsWith pat (c :: rest) then
      repl ++ replaceSubF pat repl fuel ((c :: rest).drop pat.length)
    else
      c :: replaceSubF pat repl fuel rest

def replaceSub (pat repl s : List Char) : List Char :=
  replaceSubF pat repl s.length s

theorem leadsWith_iff (pat s : List Char) :
    leadsWith pat s = true ↔ ∃ r, s = pat ++ r := by
  induction pat generalizing s with
  | nil => simp [leadsWith]
  | cons p ps ih =>
    cases s with
    | nil =>
      simp only [leadsWith, Bool.false_eq_true, false_iff]
      rintro ⟨r, hr⟩
      exact absurd hr (by simp)
    | cons c cs =>
      simp only [leadsWith, Bool.and_eq_true, decide_eq_true_eq, ih]
      constructor
      · rintro ⟨hpc, r, hr⟩
        exact ⟨r, by simp [hpc, hr]⟩
      · rintro ⟨r, hr⟩
        simp only [List.cons_append, List.cons.injEq] at hr
        exact ⟨hr.1.symm, r, hr.2⟩

theorem containsTok_iff (pat s : List Char) :
    containsTok pat s = true ↔ ∃ l r, s = l ++ pat ++ r := by
  induction s with
  | nil =>
    simp only [containsTok, leadsWith_iff]
    constructor
    · rintro ⟨r, hr⟩
      exact ⟨[], r, by simpa using hr⟩
    · rintro ⟨l, r, hr⟩
      have h0 : (l ++ pat) ++ r = [] := by simpa using hr.symm
      have h1 := List.append_eq_nil.mp h0
      have h2 := List.append_eq_nil.mp h1.1
      exact ⟨r, by simp [h2.2, h1.2]⟩
  | cons c cs ih =>
    simp only [containsTok, Bool.or_eq_true, leadsWith_iff, ih]
    constructor
    · rintro (⟨r, hr⟩ | ⟨l, r, hr⟩)
      · exact ⟨[], r, by simp [hr]⟩
      · exact ⟨c :: l, r, by simp [hr]⟩
    · rintro ⟨l, r, hr⟩
      cases l with
      | nil => exact Or.inl ⟨r, by simpa using hr⟩
      | cons x xs =>
        simp only [List.cons_append, List.cons.injEq] at hr
        exact Or.inr ⟨xs, r, hr.2⟩

theorem containsTok_false_not_leads {pat : List Char} :
    ∀ {s : List Char}, containsTok pat s = false → leadsWith pat s = false
  | [], h => by simpa [containsTok] using h
  | c :: cs, h => by
    simp only [containsTok, Bool.or_eq_false_iff] at h
    exact h.1

theorem containsTok_false_tail {pat : List Char} {c : Char} {cs : List Char}
    (h : containsTok pat (c :: cs) = false) : containsTok pat cs = false := by
  simp only [containsTok, Bool.or_eq_false_iff] at h
  exact h.2

theorem replaceSubF_of_not_contains {pat repl : List Char} :
    ∀ (fuel : Nat) {s : List Char}, containsTok pat s = false →
      replaceSubF pat repl fuel s = s
  | fuel, [], _ => by cases fuel <;> rfl
  | 0, _ :: _, _ => rfl
  | fuel + 1, c :: cs, h => by
    have hl := containsTok_false_not_leads h
    have hcond : ¬ (pat ≠ [] ∧ leadsWith pat (c :: cs) = true) := by
      rintro ⟨-, hlead⟩
      simp [hl] at hlead
    simp only [replaceSubF, if_neg hcond]
    rw [replaceSubF_of_not_contains fuel (containsTok_false_tail h)]

/-- A pattern absent from `s` is never replaced: `replaceSub` is the identity. -/
theorem replaceSub_of_not_contains {pat repl s : List Char}
    (h : containsTok pat s = false) : replaceSub pat repl s = s :=
  replaceSubF_of_not_contains s.length h

theorem length_dropWhile_le {α : Type} (p : α → Bool) (l : List α) :
    (l.dropWhile p).length ≤ l.length := by
  induction l with
  | nil => simp [List.dropWhile]
  | cons c cs ih =>
    by_cases h : p c
    · rw [List.dropWhile_cons_of_pos h]
      exact Nat.le_succ_of_le ih
    · rw [List.dropWhile_cons_of_neg h]

/-- The match attempt of `\{\{(\w+)\}\}` anchored at the head of `s`: two
braces, a maximal non-empty run of word characters, two closing braces (no
backtracking can help since word characters and braces are disjoint).
Returns the captured identifier and the rest of the input after the match. -/
def matchPlaceholderAt : List Char → Option (List Char × List Char)
  | '{' :: '{' :: rest =>
    match rest.dropWhile isWordChar with
    | '}' :: '}' :: rest3 =>
      if rest.takeWhile isWordChar = [] then none
      else some (rest.takeWhile isWordChar, rest3)
    | _ => none
  | _ => none

/-- The matches of `re.finditer(r'\{\{(\w+)\}\}', s)` (as consumed by
`re.findall`) as (position, captured identifier) pairs, in scan order: on
failure the engine advances one position, on success it resumes after the
match (non-overlapping).  Fuel-structural; every step consumes at least one
input character, so fuel `s.length` (used by `scanPlaceholders`) suffices. -/
def scanPlaceholdersF : Nat → Nat → List Char → List (Nat × List Char)
  | _, _, [] => []
  | 0, _, _ => []
  | fuel + 1, i, c :: rest =>
    match matchPlaceholderAt (c :: rest) with
    | some (fname, rest3) =>
      (i, fname) :: scanPlaceholdersF fuel (i + 4 + fname.length) rest3
    | none => scanPlaceholdersF fuel (i + 1) rest

def scanPlaceholders (i : Nat) (s : List Char) : List (Nat × List Char) :=
  scanPlaceholdersF s.length i s

/-- The attempt of the optional group `(?:type="(\w+)")?` at the regex
engine's current position.  In `extract_form_fields` this position always
sits at a `'>'` character or at the end of input (it follows a maximal
`[^>]*` run, and the engine never backtracks into that run because the
optional group can succeed empty), so the attempt always fails; the
definition still performs it faithfully. -/
def matchTypeAt (s : List Char) : Option (List Char) :=
  match s with
  | 't' :: 'y' :: 'p' :: 'e' :: '=' :: '\"' :: rest =>
    let t := rest.takeWhile isWordChar
    match rest.dropWhile isWordChar with
    | '\"' :: _ => if t = [] then none else some t
    | _ => none
  | _ => none

/-- The match attempt of `name="(\w+)"[^>]*` anchored at the head of `s`:
the literal `name="`, a maximal non-empty word run, the closing quote, then
the greedy `[^>]*` running to the next `'>'` or the end of input.  Returns
the captured name, the rest of the input at the match end (where the
optional `type` group is then attempted) and the matched length. -/
def matchInputAt : List Char → Option (List Char × List Char × Nat)
  | 'n' :: 'a' :: 'm' :: 'e' :: '=' :: '\"' :: rest0 =>
    match rest0.dropWhile isWordChar with
    | '\"' :: rest2 =>
      if rest0.takeWhile isWordChar = [] then none
      else some (rest0.takeWhile isWordChar, rest2.dropWhile (fun c => c ≠ '>'),
        6 + (rest0.takeWhile isWordChar).length + 1
          + (rest2.takeWhile (fun c => c ≠ '>')).length)
    | _ => none
  | _ => none

/-- The matches of `re.finditer(r'name="(\w+)"[^>]*(?:type="(\w+)")?', s)`
as (position, name group, `group(2) or "text"`) triples, in scan order: on
failure the engine advances one position, on success it resumes at the
match end (non-overlapping), where the optional `type` group was attempted. -/
def scanInputsF : Nat → Nat → List Char → List (Nat × List Char × List Char)
  | _, _, [] => []
  | 0, _, _ => []
  | fuel + 1, i, c :: rest =>
    match matchInputAt (c :: rest) with
    | some (fname, rest3, len) =>
      (i, fname, (matchTypeAt rest3).getD "text".toList) ::
        scanInputsF fuel (i + len) rest3
    | none => scanInputsF fuel (i + 1) rest

def scanInputs (i : Nat) (s : List Char) : List (Nat × List Char × List Char) :=
  scanInputsF s.length i s

/-- A discovered form field: the dict `{"name": ..., "type": ..., "source": ...}`
built by `extract_form_fields`. -/
structure FieldDescriptor where
  name : List Char
  type : List Char
  source : List Char
deriving DecidableEq, Repr

/-- `extract_form_fields`: the placeholder pass (`re.findall`) followed by the
form-input pass (`re.finditer`), concatenated in that order. -/
def extract_form_fields (content : List Char) : List FieldDescriptor :=
  (scanPlaceholders 0 content).map
      (fun m => { name := m.2, type := "text".toList, source := "placeholder".toList })
    ++ (scanInputs 0 content).map
      (fun m => { name := m.2.1, type := m.2.2, source := "form_input".toList })

/-- The literal `name="k"`, the mandatory head of the pattern
`name="<re.escape(k)>"[^>]*value="[^"]*"` (`re.escape` makes `k` literal). -/
def nameHeader (k : List Char) : List Char :=
  'n' :: 'a' :: 'm' :: 'e' :: '=' :: '\"' :: (k ++ ['\"'])

/-- The replacement text `name="{field_name}" value="{field_value}"`. -/
def attrRepl (k v : List Char) : List Char :=
  'n' :: 'a' :: 'm' :: 'e' :: '=' :: '\"' :: (k ++ ('\"' :: ' ' :: 'v' :: 'a' :: 'l' :: 'u' :: 'e' :: '=' :: '\"' :: (v ++ ['\"'])))

/-- Length matched by `value="[^"]*"` at the head of `u`, if it matches:
the literal `value="`, then the greedy `[^"]*` (which runs exactly to the
first quote), then that closing quote. -/
def valueTailLen (u : List Char) : Option Nat :=
  match u with
  | 'v' :: 'a' :: 'l' :: 'u' :: 'e' :: '=' :: '\"' :: u2 =>
    let run := u2.takeWhile (fun c => c ≠ '\"')
    if run.length < u2.length then some (7 + run.length + 1) else none
  | _ => none

/-- Length matched by `[^>]*value="[^"]*"` at the head of `t`, if it
matches.  The greedy `[^>]*` makes the engine try the longest non-`'>'`
span first, so the successful start of `value="` is the largest offset
`j` within that span at which the value part matches. -/
def attrTailLen (t : List Char) : Option Nat :=
  (List.range ((t.takeWhile (fun c => c ≠ '>')).length + 1)).reverse.findSome?
    (fun j => (valueTailLen (t.drop j)).map (fun tl => j + tl))

/-- Length matched by the full pattern `name="k"[^>]*value="[^"]*"` at the
head of `s`, if it matches. -/
def attemptAttr (k : List Char) (s : List Char) : Option Nat :=
  if leadsWith (nameHeader k) s then
    (attrTailLen (s.drop (nameHeader k).length)).map
      (fun tl => (nameHeader k).length + tl)
  else none

theorem attemptAttr_some_ge {k s : List Char} {n : Nat}
    (h : attemptAttr k s = some n) : 7 ≤ n := by
  unfold attemptAttr at h
  split at h
  · rcases Option.map_eq_some'.mp h with ⟨tl, -, htl⟩
    have : (nameHeader k).length = 7 + k.length := by simp [nameHeader]; omega
    omega
  · exact absurd h (by simp)

/-- `re.sub(r'name="k"[^>]*value="[^"]*"', ..., s)`: scan left to right,
replace each non-overlapping match, resume after the match; replacement
text is not rescanned. -/
def subAttrF (k v : List Char) : Nat → List Char → List Char
  | _, [] => []
  | 0, s => s
  | fuel + 1, c :: rest =>
    match attemptAttr k (c :: rest) with
    | some n => attrRepl k v ++ subAttrF k v fuel ((c :: rest).drop n)
    | none => c :: subAttrF k v fuel rest

def subAttr (k v : List Char) (s : List Char) : List Char :=
  subAttrF k v s.length s

/-- The placeholder token `f"{{{{{field_name}}}}}"`, i.e. `{{name}}`. -/
def placeholderTok (name : List Char) : List Char :=
  '{' :: '{' :: (name ++ ['}', '}'])

/-- The body of the `update_form_fields` loop for one `(field_name,
field_value)` pair: the guarded placeholder `str.replace`, then the
attribute `re.sub`. -/
def applyField (content : List Char) (k v : List Char) : List Char :=
  let c1 := if containsTok (placeholderTok k) content
            then replaceSub (placeholderTok k) v content else content
  subAttr k v c1

/-- `update_form_fields(content, form_data)`: sequential application of
`applyField` over the data in mapping iteration order. -/
def update_form_fields (content : List Char)
    (form_data : List (List Char × List Char)) : List Char :=
  form_data.foldl (fun acc kv => applyField acc kv.1 kv.2) content

/-- The Smart-Forms test of `complete_form`:
`"smart-forms.saasjet.com" in current_content or "iframe" in current_content.lower()`. -/
def classify (content : List Char) : Bool :=
  containsTok "smart-forms.saasjet.com".toList content
    || containsTok "iframe".toList (content.map lowerChar)

/-- The value escaping of `create_form_summary_page`:
`str(v).replace("&", "&amp;").replace("<", "&lt;").replace(">", "&gt;")`. -/
def escapeValue (v : List Char) : List Char :=
  replaceSub ['>'] "&gt;".toList
    (replaceSub ['<'] "&lt;".toList
      (replaceSub ['&'] "&amp;".toList v))

/-- ASCII core of Python's `str.title`: a letter is uppercased when the
previous character is not a letter, lowercased otherwise. -/
def titleChars : Bool → List Char → List Char
  | _, [] => []
  | prevAlpha, c :: rest =>
    (if c.isAlpha then (if prevAlpha then c.toLower else c.toUpper) else c) ::
      titleChars c.isAlpha rest

/-- The label rendering of `create_form_summary_page`:
`str(field_name).replace("_", " ").title()`. -/
def titleLabel (k : List Char) : List Char :=
  titleChars false (replaceSub ['_'] [' '] k)

/-- One data row of the summary table:
`f"<tr><td><strong>{field_name_str}</strong></td><td>{field_value_str}</td></tr>"`. -/
def summaryRow (k v : List Char) : List Char :=
  "<tr><td><strong>".toList ++ titleLabel k ++ "</strong></td><td>".toList
    ++ escapeValue v ++ "</td></tr>".toList

/-- The fixed `content_parts` prefix before the data rows: heading,
timestamp line, original-form reference (`original_page.get('title',
'Unknown')`), separator, sub-heading, table opening and table header row. -/
def summaryHeader (original_title : Option (List Char))
    (timestamp : List Char) : List Char :=
  "<h2>Form Submission Summary</h2><p><strong>Submitted:</strong> ".toList
    ++ timestamp
    ++ "</p><p><strong>Original Form:</strong> ".toList
    ++ original_title.getD "Unknown".toList
    ++ "</p><hr/><h3>Submitted Data</h3><table><tr><th>Field</th><th>Value</th></tr>".toList

/-- The fixed `content_parts` suffix after the data rows. -/
def summaryFooter : List Char :=
  "</table><hr/><p><em>This submission was automatically created by the Confluence MCP Server.</em></p>".toList

/-- `create_form_summary_page(form_data, original_page)`: the fixed
skeleton with the timestamp (a runtime value, passed as a parameter) and
one table row per data entry, all parts joined with `""`. -/
def create_form_summary_page (form_data : List (List Char × List Char))
    (original_title : Option (List Char)) (timestamp : List Char) : List Char :=
  summaryHeader original_title timestamp
    ++ (form_data.map (fun kv => summaryRow kv.1 kv.2)).flatten
    ++ summaryFooter

/-- A page as returned by the Gateway fetch, with the parts
`complete_form` reads: title, space key, storage content and version. -/
structure Page where
  title : List Char
  space_key : Option (List Char)
  content : List Char
  version : Nat
deriving DecidableEq, Repr

/-- One call made to the external Page Sync Gateway. -/
inductive GatewayCall where
  | fetch (page_id : List Char)
  | update (page_id title body : List Char) (version : Nat)
  | create (space : Option (List Char)) (title body parent_id : List Char)
deriving DecidableEq, Repr

/-- The two success result shapes of `complete_form`, with the fields the
claims mention. -/
inductive CfResult where
  | summary (original_page_id original_page_title summary_page_id
      summary_page_title : List Char) (form_data : List (List Char × List Char))
  | updated (page_id page_title : List Char) (updated_fields : List (List Char))
deriving DecidableEq, Repr

/-- Arguments of `complete_form` after `arguments.get`: absent keys are
`none`; `create_summary_page` defaults to `True`. -/
structure Args where
  page_id : Option (List Char)
  form_data : List (List Char × List Char)
  space_key : Option (List Char)
  create_summary_page : Bool
deriving DecidableEq, Repr

/-- First-match association lookup, Python dict access on the insertion-order
model of the mapping. -/
def lookupStr (k : List Char) : List (List Char × List Char) → Option (List Char)
  | [] => none
  | kv :: rest => if kv.1 = k then some kv.2 else lookupStr k rest

/-- `if not space_key: space_key = page.get("space", {}).get("key")`.
Pythonic falsiness: `None` and the empty string both trigger the default. -/
def resolveSpace (arg : Option (List Char)) (page : Page) : Option (List Char) :=
  match arg with
  | some s => if s = [] then page.space_key else some s
  | none => page.space_key

/-- `complete_form(arguments)`.  The Gateway is modelled by the `store`
function (fetch result per page id); `ts` is the runtime timestamp and
`newId` the id the Gateway assigns to a created page.  The result pairs
the ordered list of Gateway calls made with the outcome: `Except.error`
models a raised exception (`ValueError` for the validation and not-found
cases). -/
def complete_form (args : Args) (store : List Char → Option Page)
    (ts newId : List Char) : List GatewayCall × Except (List Char) CfResult :=
  match args.page_id with
  | none => ([], .error "page_id is required".toList)
  | some pid =>
    if pid = [] then ([], .error "page_id is required".toList)
    else if args.form_data = [] then ([], .error "form_data is required".toList)
    else
      match store pid with
      | none => ([GatewayCall.fetch pid],
          .error ("Page ".toList ++ pid ++ " not found".toList))
      | some page =>
        if classify page.content && args.create_summary_page then
          let stitle := "Form Submission: ".toList ++ page.title ++ " - ".toList
            ++ (lookupStr "project_name".toList args.form_data).getD
                "New Submission".toList
          let sbody := create_form_summary_page args.form_data (some page.title) ts
          ([GatewayCall.fetch pid,
            GatewayCall.create (resolveSpace args.space_key page) stitle sbody pid],
           .ok (.summary pid page.title newId stitle args.form_data))
        else
          let updated := update_form_fields page.content args.form_data
          ([GatewayCall.fetch pid,
            GatewayCall.update pid page.title updated (page.version + 1)],
           .ok (.updated pid page.title (args.form_data.map Prod.fst)))

/-- An MCP text content item. -/
structure TextContent where
  type : List Char
  text : List Char
deriving DecidableEq, Repr

/-- `call_tool(name, arguments)`: dispatch to the named operation, catch
any raised exception `e` and return `[TextContent(type="text",
text=f"Error: {str(e)}")]`.  The outcomes of the two operations are
passed as `Except` values (`.error` models a raised exception). -/
def call_tool (name : List Char)
    (completeOutcome structureOutcome : Except (List Char) (List TextContent)) :
    List TextContent :=
  let r : Except (List Char) (List TextContent) :=
    if name = "complete_confluence_form".toList then completeOutcome
    else if name = "get_form_structure".toList then structureOutcome
    else .error ("Unknown tool: ".toList ++ name)
  match r with
  | .ok v => v
  | .error m => [{ type := "text".toList, text := "Error: ".toList ++ m }]

theorem scanPlaceholdersF_lb :
    ∀ (fuel i : Nat) (s : List Char), ∀ m ∈ scanPlaceholdersF fuel i s, i ≤ m.1 := by
  intro fuel i s
  induction fuel, i, s using scanPlaceholdersF.induct with
  | case1 t x => simp [scanPlaceholdersF]
  | case2 x s hs =>
    cases s with
    | nil => simp [scanPlaceholdersF]
    | cons a as => simp [scanPlaceholdersF]
  | case3 fuel i c rest fname rest3 h ih =>
    intro m hm
    simp only [scanPlaceholdersF, h, List.mem_cons] at hm
    rcases hm with rfl | hm
    · exact Nat.le_refl _
    · have := ih m hm
      omega
  | case4 fuel i c rest h ih =>
    intro m hm
    simp only [scanPlaceholdersF, h] at hm
    have := ih m hm
    omega

theorem scanPlaceholdersF_pairwise :
    ∀ (fuel i : Nat) (s : List Char),
      (scanPlaceholdersF fuel i s).Pairwise (fun a b => a.1 < b.1) := by
  intro fuel i s
  induction fuel, i, s using scanPlaceholdersF.induct with
  | case1 t x => simp [scanPlaceholdersF]
  | case2 x s hs =>
    cases s with
    | nil => simp [scanPlaceholdersF]
    | cons a as => simp [scanPlaceholdersF]
  | case3 fuel i c rest fname rest3 h ih =>
    simp only [scanPlaceholdersF, h]
    refine List.Pairwise.cons ?_ ih
    intro b hb
    have := scanPlaceholdersF_lb fuel (i + 4 + fname.length) rest3 b hb
    omega
  | case4 fuel i c rest h ih =>
    simpa only [scanPlaceholdersF, h] using ih

theorem matchInputAt_some_len {s fname rest3 : List Char} {len : Nat}
    (h : matchInputAt s = some (fname, rest3, len)) : 7 ≤ len := by
  unfold matchInputAt at h
  repeat' split at h
  all_goals
    simp only [Option.some.injEq, Prod.mk.injEq, reduceCtorEq] at h
  obtain ⟨-, -, hlen⟩ := h
  omega

theorem scanInputsF_lb :
    ∀ (fuel i : Nat) (s : List Char), ∀ m ∈ scanInputsF fuel i s, i ≤ m.1 := by
  intro fuel i s
  induction fuel, i, s using scanInputsF.induct with
  | case1 t x => simp [scanInputsF]
  | case2 x s hs =>
    cases s with
    | nil => simp [scanInputsF]
    | cons a as => simp [scanInputsF]
  | case3 fuel i c rest fname rest3 len h ih =>
    intro m hm
    simp only [scanInputsF, h, List.mem_cons] at hm
    rcases hm with rfl | hm
    · exact Nat.le_refl _
    · have := ih m hm
      omega
  | case4 fuel i c rest h ih =>
    intro m hm
    simp only [scanInputsF, h] at hm
    have := ih m hm
    omega

theorem scanInputsF_pairwise :
    ∀ (fuel i : Nat) (s : List Char),
      (scanInputsF fuel i s).Pairwise (fun a b => a.1 < b.1) := by
  intro fuel i s
  induction fuel, i, s using scanInputsF.induct with
  | case1 t x => simp [scanInputsF]
  | case2 x s hs =>
    cases s with
    | nil => simp [scanInputsF]
    | cons a as => simp [scanInputsF]
  | case3 fuel i c rest fname rest3 len h ih =>
    simp only [scanInputsF, h]
    refine List.Pairwise.cons ?_ ih
    intro b hb
    have hlb := scanInputsF_lb fuel (i + len) rest3 b hb
    have h7 := matchInputAt_some_len h
    omega
  | case4 fuel i c rest h ih =>
    simpa only [scanInputsF, h] using ih

theorem attemptAttr_of_not_leads {k s : List Char}
    (h : leadsWith (nameHeader k) s = false) : attemptAttr k s = none := by
  simp [attemptAttr, h]

theorem subAttrF_of_not_contains {k v : List Char} :
    ∀ (fuel : Nat) {s : List Char}, containsTok (nameHeader k) s = false →
      subAttrF k v fuel s = s
  | fuel, [], _ => by cases fuel <;> rfl
  | 0, _ :: _, _ => rfl
  | fuel + 1, c :: cs, h => by
    have hnone : attemptAttr k (c :: cs) = none :=
      attemptAttr_of_not_leads (containsTok_false_not_leads h)
    simp only [subAttrF, hnone]
    rw [subAttrF_of_not_contains fuel (containsTok_false_tail h)]

/-- If the literal `name="k"` does not occur in `s`, the attribute pattern
has no match and `re.sub` returns `s` unchanged. -/
theorem subAttr_of_not_contains {k v s : List Char}
    (h : containsTok (nameHeader k) s = false) : subAttr k v s = s :=
  subAttrF_of_not_contains s.length h

theorem applyField_of_not_contains {content k v : List Char}
    (hp : containsTok (placeholderTok k) content = false)
    (hn : containsTok (nameHeader k) content = false) :
    applyField content k v = content := by
  unfold applyField
  rw [if_neg (by simp [hp]), subAttr_of_not_contains hn]

/-- If no data key's placeholder token or `name="..."` literal occurs in
`s`, one whole merge pass leaves `s` unchanged. -/
theorem update_form_fields_of_not_contains {s : List Char}
    {data : List (List Char × List Char)}
    (h : ∀ kv ∈ data, containsTok (placeholderTok kv.1) s = false ∧
      containsTok (nameHeader kv.1) s = false) :
    update_form_fields s data = s := by
  induction data with
  | nil => rfl
  | cons kv rest ih =>
    unfold update_form_fields at ih ⊢
    simp only [List.foldl_cons]
    rw [applyField_of_not_contains (h kv (by simp)).1 (h kv (by simp)).2]
    exact ih (fun x hx => h x (List.mem_cons_of_mem kv hx))

theorem dropWhile_head_not {α : Type} {p : α → Bool} :
    ∀ {l : List α} {a : α} {as : List α}, l.dropWhile p = a :: as → p a = false
  | [], _, _, h => by simp [List.dropWhile] at h
  | c :: cs, a, as, h => by
    by_cases hp : p c
    · rw [List.dropWhile_cons_of_pos hp] at h
      exact dropWhile_head_not h
    · rw [List.dropWhile_cons_of_neg hp] at h
      injection h with h1 h2
      subst h1
      exact Bool.eq_false_iff.mpr hp

theorem matchInputAt_matchTypeAt_none {s fname rest3 : List Char} {len : Nat}
    (h : matchInputAt s = some (fname, rest3, len)) : matchTypeAt rest3 = none := by
  unfold matchInputAt at h
  repeat' split at h
  all_goals
    simp only [Option.some.injEq, Prod.mk.injEq, reduceCtorEq] at h
  obtain ⟨-, hrest3, -⟩ := h
  rcases hr : List.dropWhile (fun c => c ≠ '>') ‹List Char› with _ | ⟨a, as⟩
  · rw [hr] at hrest3
    rw [← hrest3]
    rfl
  · have ha2 : a = '>' := by simpa using dropWhile_head_not hr
    rw [hr, ha2] at hrest3
    rw [← hrest3]
    rfl

/-- The optional `type` group of the form-input pattern can never
participate in a match: every descriptor the input pass yields has type
`"text"`. -/
theorem scanInputsF_type_text :
    ∀ (fuel i : Nat) (s : List Char), ∀ m ∈ scanInputsF fuel i s,
      m.2.2 = "text".toList := by
  intro fuel i s
  induction fuel, i, s using scanInputsF.induct with
  | case1 t x => simp [scanInputsF]
  | case2 x s hs =>
    cases s with
    | nil => simp [scanInputsF]
    | cons a as => simp [scanInputsF]
  | case3 fuel i c rest fname rest3 len h ih =>
    intro m hm
    simp only [scanInputsF, h, List.mem_cons] at hm
    rcases hm with rfl | hm
    · simp [matchInputAt_matchTypeAt_none h]
    · exact ih m hm
  | case4 fuel i c rest h ih =>
    intro m hm
    simp only [scanInputsF, h] at hm
    exact ih m hm

/-! ## Claims -/

/-- C1, counterexample: in a native-path run whose fetch observes version 3
(page content `{{x}}`, data `{"x": "1"}`), the update call supplies version
`3 + 1`, not the last-observed version 3: the claim that the supplied
version equals the last-observed version fails on this input. -/
theorem C1_counterexample :
    (complete_form ⟨some "7".toList, [("x".toList, "1".toList)], none, true⟩
        (fun pid => if pid = "7".toList then
          some ⟨"T".toList, none, "{{x}}".toList, 3⟩ else none) [] []).1
      = [GatewayCall.fetch "7".toList,
         GatewayCall.update "7".toList "T".toList "1".toList (3 + 1)]
    ∧ (3 + 1 : Nat) ≠ 3 := by
  constructor
  · rfl
  · decide

/-- C1, amended: on every native-path invocation (valid arguments, page
found, and not (EXTERNAL and create_summary)), the version supplied to the
Gateway update call equals the last-observed version read in the fetch of
that same invocation plus one. -/
theorem C1_update_version (args : Args) (store : List Char → Option Page)
    (ts newId pid : List Char) (page : Page)
    (hpid : args.page_id = some pid) (hne : pid ≠ [])
    (hfd : args.form_data ≠ [])
    (hstore : store pid = some page)
    (hnative : ¬(classify page.content = true ∧ args.create_summary_page = true)) :
    (complete_form args store ts newId).1
      = [GatewayCall.fetch pid,
         GatewayCall.update pid page.title
           (update_form_fields page.content args.form_data) (page.version + 1)] := by
  have hb : ¬((classify page.content && args.create_summary_page) = true) := by
    rw [Bool.and_eq_true]
    exact hnative
  simp only [complete_form, hpid, if_neg hne, if_neg hfd, hstore, if_neg hb]

/-- Witness for C1: the amended statement at the concrete native run. -/
theorem C1_update_version_witness :
    (complete_form ⟨some "7".toList, [("x".toList, "1".toList)], none, true⟩
        (fun pid => if pid = "7".toList then
          some ⟨"T".toList, none, "{{x}}".toList, 3⟩ else none) [] []).1
      = [GatewayCall.fetch "7".toList,
         GatewayCall.update "7".toList "T".toList
           (update_form_fields "{{x}}".toList [("x".toList, "1".toList)]) (3 + 1)] :=
  C1_update_version _ _ _ _ _ _ rfl (by decide) (by decide) rfl (by decide)

/-- C2: with a fetch returning version 3 and content `{{x}}` and data
`{"x": "1"}` (classified NATIVE), `complete_form` calls the Gateway update
exactly once, with version 4 and body `"1"`, and the result reports
`updated_fields = ["x"]`. -/
theorem C2_end_to_end :
    complete_form ⟨some "123".toList, [("x".toList, "1".toList)], none, true⟩
        (fun pid => if pid = "123".toList then
          some ⟨"T".toList, none, "{{x}}".toList, 3⟩ else none) [] []
      = ([GatewayCall.fetch "123".toList,
          GatewayCall.update "123".toList "T".toList "1".toList 4],
         Except.ok (CfResult.updated "123".toList "T".toList ["x".toList])) := by
  rfl

/-- C3: on the tag `<input name="a" type="email">`, whose `type` attribute
follows the `name` attribute, the form-input pass still yields type
`"text"`: the greedy `[^>]*` always reaches the end of the tag before the
optional `type` group is attempted, so the captured type is never used
(`scanInputsF_type_text` proves this for every input). -/
theorem C3_type_attribute_dropped :
    extract_form_fields "<input name=\"a\" type=\"email\">".toList
      = [⟨"a".toList, "text".toList, "form_input".toList⟩] := by
  rfl

/-- C4, counterexample: `smart-forms.saasjet.com` contains no `iframe`
substring (even case-insensitively), yet `classify` reports EXTERNAL, so
"NATIVE for every content string that does not contain iframe" fails. -/
theorem C4_counterexample :
    classify "smart-forms.saasjet.com".toList = true
    ∧ ¬ ∃ l r, "smart-forms.saasjet.com".toList.map lowerChar
        = l ++ "iframe".toList ++ r := by
  constructor
  · rfl
  · intro hex
    have h1 := (containsTok_iff "iframe".toList
      ("smart-forms.saasjet.com".toList.map lowerChar)).mpr hex
    have h2 : containsTok "iframe".toList
        ("smart-forms.saasjet.com".toList.map lowerChar) = false := by rfl
    rw [h1] at h2
    exact absurd h2 (by decide)

/-- C4, amended: `classify` returns EXTERNAL exactly when the content
contains the literal `smart-forms.saasjet.com` or, case-insensitively, the
substring `iframe`; it returns NATIVE otherwise. -/
theorem C4_classify_characterization (content : List Char) :
    classify content = true ↔
      (∃ l r, content = l ++ "smart-forms.saasjet.com".toList ++ r)
      ∨ (∃ l r, content.map lowerChar = l ++ "iframe".toList ++ r) := by
  unfold classify
  rw [Bool.or_eq_true, containsTok_iff, containsTok_iff]

/-- C5: `extract_form_fields` is the concatenation of the placeholder pass
followed by the form-input pass (no deduplication across passes: a name
found by both passes yields two descriptors); each pass lists its matches
in strictly increasing position order; the empty content yields `[]`. -/
theorem C5_extract_fields_order (content : List Char) :
    extract_form_fields content
      = (scanPlaceholders 0 content).map
          (fun m => ⟨m.2, "text".toList, "placeholder".toList⟩)
        ++ (scanInputs 0 content).map
          (fun m => ⟨m.2.1, m.2.2, "form_input".toList⟩)
    ∧ (scanPlaceholders 0 content).Pairwise (fun a b => a.1 < b.1)
    ∧ (scanInputs 0 content).Pairwise (fun a b => a.1 < b.1)
    ∧ extract_form_fields [] = [] :=
  ⟨rfl, scanPlaceholdersF_pairwise _ _ _, scanInputsF_pairwise _ _ _, rfl⟩

/-- C6, counterexample: content `name="a" value="x"` with data
`{"a": '"'}` (a double-quote value).  One merge yields
`name="a" value="""`, which holds no residual `{{` at all, yet a second
merge appends a stray quote and differs. -/
theorem C6_counterexample :
    containsTok ['{', '{']
        (update_form_fields "name=\"a\" value=\"x\"".toList
          [("a".toList, ['\"'])]) = false
    ∧ update_form_fields
        (update_form_fields "name=\"a\" value=\"x\"".toList [("a".toList, ['\"'])])
        [("a".toList, ['\"'])]
      ≠ update_form_fields "name=\"a\" value=\"x\"".toList [("a".toList, ['\"'])] := by
  constructor
  · rfl
  · decide

/-- C6, amended: a second application of `merge` with the same data
returns the first result unchanged provided the first result contains, for
every data key `k`, neither the placeholder token `{{k}}` nor the literal
`name="k"` (so the attribute rewrite also finds no match; a value
containing a double quote can otherwise recreate a match and break
idempotence, as `C6_counterexample` shows). -/
theorem C6_merge_idempotent (content : List Char)
    (data : List (List Char × List Char))
    (h : ∀ kv ∈ data,
      containsTok (placeholderTok kv.1) (update_form_fields content data) = false
      ∧ containsTok (nameHeader kv.1) (update_form_fields content data) = false) :
    update_form_fields (update_form_fields content data) data
      = update_form_fields content data :=
  update_form_fields_of_not_contains h

/-- Witness for C6: the amended statement at a concrete run
(`merge("{{x}}", {"x": "1"}) = "1"`, merging again is the identity). -/
theorem C6_merge_idempotent_witness :
    update_form_fields (update_form_fields "{{x}}".toList [("x".toList, "1".toList)])
        [("x".toList, "1".toList)]
      = update_form_fields "{{x}}".toList [("x".toList, "1".toList)] :=
  C6_merge_idempotent _ _ (by decide)

/-- C7: when `page_id` is absent or empty, or `form_data` is absent or
empty, `complete_form` raises (`ValueError`, the InvalidArgument case) and
performs no Gateway call at all. -/
theorem C7_invalid_args (args : Args) (store : List Char → Option Page)
    (ts newId : List Char)
    (h : args.page_id = none ∨ args.page_id = some [] ∨ args.form_data = []) :
    (∃ msg, (complete_form args store ts newId).2 = Except.error msg)
    ∧ (complete_form args store ts newId).1 = [] := by
  rcases h with h | h | h
  · exact ⟨⟨"page_id is required".toList, by simp [complete_form, h]⟩,
      by simp [complete_form, h]⟩
  · exact ⟨⟨"page_id is required".toList, by simp [complete_form, h]⟩,
      by simp [complete_form, h]⟩
  · rcases hp : args.page_id with _ | pid
    · exact ⟨⟨"page_id is required".toList, by simp [complete_form, hp]⟩,
        by simp [complete_form, hp]⟩
    · by_cases hpe : pid = []
      · exact ⟨⟨"page_id is required".toList, by simp [complete_form, hp, hpe]⟩,
          by simp [complete_form, hp, hpe]⟩
      · exact ⟨⟨"form_data is required".toList,
          by simp [complete_form, hp, hpe, h]⟩,
          by simp [complete_form, hp, hpe, h]⟩

/-- Witness for C7: empty `page_id` with non-empty data. -/
theorem C7_invalid_args_witness :
    (∃ msg, (complete_form ⟨some [], [("x".toList, "1".toList)], none, true⟩
        (fun _ => none) [] []).2 = Except.error msg)
    ∧ (complete_form ⟨some [], [("x".toList, "1".toList)], none, true⟩
        (fun _ => none) [] []).1 = [] :=
  C7_invalid_args _ _ _ _ (Or.inr (Or.inl rfl))

/-- C8: every table row rendered for an entry `(k, v)` of the data carries,
in its value cell, exactly `v` with `&` replaced by `&amp;`, then `<` by
`&lt;`, then `>` by `&gt;` (the definition of `escapeValue`); in
particular `"<b>&</b>"` escapes to `"&lt;b&gt;&amp;&lt;/b&gt;"`. -/
theorem C8_row_value_escaped (data : List (List Char × List Char))
    (title : Option (List Char)) (ts k v : List Char)
    (hmem : (k, v) ∈ data) :
    (∃ pre post, create_form_summary_page data title ts
        = pre ++ ("<tr><td><strong>".toList ++ titleLabel k
            ++ "</strong></td><td>".toList ++ escapeValue v
            ++ "</td></tr>".toList) ++ post)
    ∧ escapeValue "<b>&</b>".toList = "&lt;b&gt;&amp;&lt;/b&gt;".toList := by
  constructor
  · rcases List.append_of_mem hmem with ⟨l1, l2, rfl⟩
    refine ⟨summaryHeader title ts
        ++ (l1.map (fun kv => summaryRow kv.1 kv.2)).flatten,
      (l2.map (fun kv => summaryRow kv.1 kv.2)).flatten ++ summaryFooter, ?_⟩
    simp [create_form_summary_page, summaryRow, List.append_assoc]
  · rfl

/-- Witness for C8: the single-entry data `{"f": "<b>&</b>"}`. -/
theorem C8_row_value_escaped_witness :
    (∃ pre post, create_form_summary_page
          [("f".toList, "<b>&</b>".toList)] none []
        = pre ++ ("<tr><td><strong>".toList ++ titleLabel "f".toList
            ++ "</strong></td><td>".toList ++ escapeValue "<b>&</b>".toList
            ++ "</td></tr>".toList) ++ post)
    ∧ escapeValue "<b>&</b>".toList = "&lt;b&gt;&amp;&lt;/b&gt;".toList :=
  C8_row_value_escaped _ _ _ _ _ (by decide)

/-- C9: when the dispatched operation raises a failure with message `m`,
`call_tool` returns the single structured text result whose text is
exactly `"Error: "` followed by `m` (no exception escapes: `call_tool` is
a total function into result lists). -/
theorem C9_error_wrapped (m : List Char)
    (co so : Except (List Char) (List TextContent)) :
    call_tool "complete_confluence_form".toList (Except.error m) so
        = [⟨"text".toList, "Error: ".toList ++ m⟩]
    ∧ call_tool "get_form_structure".toList co (Except.error m)
        = [⟨"text".toList, "Error: ".toList ++ m⟩] :=
  ⟨rfl, rfl⟩

/-- C10: on the external-form summary path, the created page's title is
`"Form Submission: "` + original title + `" - "` + the `project_name`
entry of the data when present, or `"New Submission"` when absent; both
the create call and the returned result carry this title. -/
theorem C10_summary_title (args : Args) (store : List Char → Option Page)
    (ts newId pid : List Char) (page : Page)
    (hpid : args.page_id = some pid) (hne : pid ≠ [])
    (hfd : args.form_data ≠ [])
    (hstore : store pid = some page)
    (hsf : classify page.content = true) (hcs : args.create_summary_page = true) :
    (complete_form args store ts newId).1
      = [GatewayCall.fetch pid,
         GatewayCall.create (resolveSpace args.space_key page)
           ("Form Submission: ".toList ++ page.title ++ " - ".toList
             ++ ((lookupStr "project_name".toList args.form_data).getD
                  "New Submission".toList))
           (create_form_summary_page args.form_data (some page.title) ts) pid]
    ∧ (complete_form args store ts newId).2
      = Except.ok (CfResult.summary pid page.title newId
          ("Form Submission: ".toList ++ page.title ++ " - ".toList
            ++ ((lookupStr "project_name".toList args.form_data).getD
                 "New Submission".toList))
          args.form_data) := by
  have hb : (classify page.content && args.create_summary_page) = true := by
    rw [Bool.and_eq_true]
    exact ⟨hsf, hcs⟩
  constructor
  · simp only [complete_form, hpid, if_neg hne, if_neg hfd, hstore, if_pos hb]
  · simp only [complete_form, hpid, if_neg hne, if_neg hfd, hstore, if_pos hb]

/-- Witness for C10: a concrete iframe page with `project_name` present. -/
theorem C10_summary_title_witness :
    (complete_form ⟨some "9".toList, [("project_name".toList, "X".toList)],
        none, true⟩
      (fun pid => if pid = "9".toList then
        some ⟨"Intake".toList, some "SP".toList, "<iframe/>".toList, 3⟩ else none)
      "TS".toList "77".toList).1
      = [GatewayCall.fetch "9".toList,
         GatewayCall.create (resolveSpace none
             ⟨"Intake".toList, some "SP".toList, "<iframe/>".toList, 3⟩)
           ("Form Submission: ".toList ++ "Intake".toList ++ " - ".toList
             ++ ((lookupStr "project_name".toList
                  [("project_name".toList, "X".toList)]).getD
                  "New Submission".toList))
           (create_form_summary_page [("project_name".toList, "X".toList)]
             (some "Intake".toList) "TS".toList) "9".toList]
    ∧ (complete_form ⟨some "9".toList, [("project_name".toList, "X".toList)],
        none, true⟩
      (fun pid => if pid = "9".toList then
        some ⟨"Intake".toList, some "SP".toList, "<iframe/>".toList, 3⟩ else none)
      "TS".toList "77".toList).2
      = Except.ok (CfResult.summary "9".toList "Intake".toList "77".toList
          ("Form Submission: ".toList ++ "Intake".toList ++ " - ".toList
            ++ ((lookupStr "project_name".toList
                 [("project_name".toList, "X".toList)]).getD
                 "New Submission".toList))
          [("project_name".toList, "X".toList)]) :=
  C10_summary_title _ _ _ _ _ _ rfl (by decide) (by decide) rfl rfl rfl

end ConfluenceMCP
